import Mathlib

/-!
A shallow embedding of `src/crawler.py` (class `Crawler`): the metrics
accumulator, the HTML logo/favicon extraction (`Crawler.parse`), the fetch
error classification (`Crawler.fetch`), the worker loop
(`Crawler.fetch_and_parse`), the CSV sink (`Crawler.writer_csv`), the
summary report (`Crawler.Metrics.print_summary`) and the semaphore
bounding concurrent fetches.  External library behaviour the code relies
on (BeautifulSoup + soupsieve selector matching, `urllib.parse.urljoin`,
httpx `raise_for_status`) is modelled faithfully on the fragment the
program exercises.
-/

namespace Crawler

/-! ### String helpers -/

/-- `hasPref n h` : the char list `n` is an initial segment of `h`. -/
def hasPref : List Char → List Char → Bool
  | [], _ => true
  | _ :: _, [] => false
  | a :: as, b :: bs => a = b && hasPref as bs

/-- `hasSub n h` : the char list `n` occurs contiguously inside `h`. -/
def hasSub (n : List Char) : List Char → Bool
  | [] => n.isEmpty
  | b :: bs => hasPref n (b :: bs) || hasSub n bs

/-- Substring test on strings (CSS `*=` attribute matching is a plain,
case-sensitive substring test). -/
def containsSub (hay needle : String) : Bool := hasSub needle.data hay.data

/-! ### HTML document model

BeautifulSoup(html, "html.parser") builds a tree; `Crawler.parse` only ever
asks `select_one` for the first element (in document order) whose tag and
attributes match a selector, so the model keeps the flat, document-ordered
list of start tags with their attributes.  Tag and attribute names are
lower-cased as html.parser does. -/

structure Element where
  tag : String
  attrs : List (String × String)
deriving DecidableEq

/-- `element.get(name)`: first binding of an attribute, `None` if absent. -/
def attrGet (e : Element) (k : String) : Option String :=
  match e.attrs.find? (fun p => p.1 = k) with
  | some p => some p.2
  | none => none

def isWsp (c : Char) : Bool := c = ' ' || c = '\n' || c = '\t' || c = '\r'

def isNameCh (c : Char) : Bool := c.isAlphanum || c = '-' || c = '_' || c = ':'

def isAttrNameCh (c : Char) : Bool :=
  !isWsp c && c ≠ '=' && c ≠ '>' && c ≠ '/' && c ≠ '<' && c ≠ '"'

def lowerStr (l : List Char) : String := String.mk (l.map Char.toLower)

/-- Drop characters up to and including the first occurrence of `c`. -/
def dropPast (c : Char) (l : List Char) : List Char :=
  match l.dropWhile (fun d => d ≠ c) with
  | [] => []
  | _ :: t => t

/-- Scan the attribute list of one start tag, up to and past its `>`.
Returns the attributes and the remaining input.  Fuel-driven recursion;
every step consumes input, so `fuel ≥ input length` suffices. -/
def scanAttrs : Nat → List Char → List (String × String) × List Char
  | 0, cs => ([], cs)
  | f + 1, cs =>
    match cs.dropWhile isWsp with
    | [] => ([], [])
    | c :: rest =>
      if c = '>' then ([], rest)
      else if c = '/' then scanAttrs f rest
      else
        match (c :: rest).span isAttrNameCh with
        | ([], _) => scanAttrs f rest
        | (nm, rest2) =>
          match rest2.dropWhile isWsp with
          | '=' :: rest3 =>
            match rest3.dropWhile isWsp with
            | '"' :: rest4 =>
              match rest4.span (fun d => d ≠ '"') with
              | (v, rest5) =>
                let rest6 := match rest5 with | [] => [] | _ :: t => t
                let (more, rem) := scanAttrs f rest6
                ((lowerStr nm, String.mk v) :: more, rem)
            | rest3b =>
              match rest3b.span (fun d => !isWsp d && d ≠ '>') with
              | (v, rest4) =>
                let (more, rem) := scanAttrs f rest4
                ((lowerStr nm, String.mk v) :: more, rem)
          | rest3 =>
            let (more, rem) := scanAttrs f rest3
            ((lowerStr nm, "") :: more, rem)

/-- Scan a document for start tags (end tags, comments and doctypes carry
no attributes and are skipped, as `Crawler.parse` never asks for them). -/
def scanTags : Nat → List Char → List Element
  | 0, _ => []
  | _ + 1, [] => []
  | f + 1, c :: rest =>
    if c = '<' then
      match rest with
      | [] => []
      | d :: rest2 =>
        if d = '/' || d = '!' || d = '?' then scanTags f (dropPast '>' rest2)
        else if d.isAlpha then
          match (d :: rest2).span isNameCh with
          | (nm, rest3) =>
            let (attrs, rest4) := scanAttrs f rest3
            ⟨lowerStr nm, attrs⟩ :: scanTags f rest4
        else scanTags f rest2
    else scanTags f rest

/-- The document-ordered start tags of an HTML string, i.e. the part of
`BeautifulSoup(html, "html.parser")` that `Crawler.parse` observes. -/
def parseHTMLTags (s : String) : List Element :=
  scanTags (2 * s.length + 2) s.data

/-- `soup.select_one(sel)`: the first element in document order matching
the selector group (soupsieve returns matches in document order). -/
def selectOne (p : Element → Bool) (es : List Element) : Option Element :=
  es.find? p

/-- The `img` selector group of `Crawler.parse`:
`img[src*="logo"], img[alt*="logo"], img[class*="logo"], img[class*="brand"],
 img[id*="logo"], img[id*="brand"], img[data-src*="logo"], img[data-lazy*="logo"]`. -/
def imgSelMatch (e : Element) : Bool :=
  e.tag = "img" &&
    (attrHas e "src" "logo" || attrHas e "alt" "logo" ||
     attrHas e "class" "logo" || attrHas e "class" "brand" ||
     attrHas e "id" "logo" || attrHas e "id" "brand" ||
     attrHas e "data-src" "logo" || attrHas e "data-lazy" "logo")
where
  attrHas (e : Element) (k needle : String) : Bool :=
    match attrGet e k with
    | some v => containsSub v needle
    | none => false

/-- `meta[property*="image"], meta[name*="image"]`. -/
def metaSelMatch (e : Element) : Bool :=
  e.tag = "meta" &&
    (imgSelMatch.attrHas e "property" "image" || imgSelMatch.attrHas e "name" "image")

/-- `link[rel*="icon"], link[href*="favicon"]`. -/
def linkSelMatch (e : Element) : Bool :=
  e.tag = "link" &&
    (imgSelMatch.attrHas e "rel" "icon" || imgSelMatch.attrHas e "href" "favicon")

/-! ### URL resolution

`Crawler.parse` resolves candidate URLs with `urllib.parse.urljoin`, which
implements RFC 3986 reference resolution.  Modelled here for hierarchical
`scheme://authority/path` URLs without query or fragment, the fragment the
crawler exercises (`parse` is always called with base `https://{domain}`). -/

def isSchemeCh (c : Char) : Bool := c.isAlphanum || c = '+' || c = '-' || c = '.'

def schemeRest : List Char → Bool
  | [] => false
  | c :: t => if c = ':' then true else if isSchemeCh c then schemeRest t else false

/-- Does the reference carry its own scheme (ALPHA then scheme chars then a colon)? -/
def hasScheme (u : String) : Bool :=
  match u.data with
  | [] => false
  | c :: t => c.isAlpha && schemeRest t

/-- First occurrence split: `splitOnSub pat l = some (before, after)`. -/
def splitOnSub (pat : List Char) : List Char → Option (List Char × List Char)
  | [] => if pat.isEmpty then some ([], []) else none
  | c :: t =>
    if hasPref pat (c :: t) then some ([], (c :: t).drop pat.length)
    else
      match splitOnSub pat t with
      | some (a, b) => some (c :: a, b)
      | none => none

/-- Split `scheme://authority/path` into its three parts (path keeps its
leading slash; empty when absent). -/
def splitBase (u : String) : Option (String × String × String) :=
  match splitOnSub [':', '/', '/'] u.data with
  | none => none
  | some (sch, rest) =>
    match rest.span (fun c => c ≠ '/') with
    | (auth, path) => some (String.mk sch, String.mk auth, String.mk path)

/-- RFC 3986 §5.2.4 remove_dot_segments, on an output stack of segments
(stored most-recent-first).  Fuel-driven; each step consumes input. -/
def rds : Nat → List Char → List (List Char) → List (List Char)
  | 0, _, out => out
  | f + 1, inp, out =>
    match inp with
    | [] => out
    | _ =>
      if hasPref ['.', '.', '/'] inp then rds f (inp.drop 3) out
      else if hasPref ['.', '/'] inp then rds f (inp.drop 2) out
      else if hasPref ['/', '.', '/'] inp then rds f ('/' :: inp.drop 3) out
      else if inp = ['/', '.'] then rds f ['/'] out
      else if hasPref ['/', '.', '.', '/'] inp then rds f ('/' :: inp.drop 4) (out.drop 1)
      else if inp = ['/', '.', '.'] then rds f ['/'] (out.drop 1)
      else if inp = ['.'] || inp = ['.', '.'] then out
      else
        match inp with
        | '/' :: t =>
          match t.span (fun c => c ≠ '/') with
          | (seg, rest) => rds f rest (('/' :: seg) :: out)
        | _ =>
          match inp.span (fun c => c ≠ '/') with
          | (seg, rest) => rds f rest (seg :: out)

def removeDotSegments (p : String) : String :=
  String.mk ((rds (p.length + 1) p.data []).reverse.flatten)

/-- Everything up to and including the last `/` of the char list (empty
when there is no slash). -/
def upToLastSlash (l : List Char) : List Char :=
  ((l.reverse.dropWhile (fun c => c ≠ '/'))).reverse

/-- RFC 3986 §5.3 path merge: base path up to its last slash, then the
reference; a base with authority and empty path contributes `/`. -/
def mergePaths (basePath ref : String) : String :=
  if basePath = "" then "/" ++ ref
  else String.mk (upToLastSlash basePath.data) ++ ref

/-- `urllib.parse.urljoin` (RFC 3986 §5.2.2 reference resolution),
restricted as described above. -/
def urljoin (base ref : String) : String :=
  if ref = "" then base
  else if hasScheme ref then ref
  else if hasPref ['/', '/'] ref.data then
    match splitBase base with
    | some (sch, _, _) => sch ++ ":" ++ ref
    | none => ref
  else
    match splitBase base with
    | none => ref
    | some (sch, auth, path) =>
      if hasPref ['/'] ref.data then sch ++ "://" ++ auth ++ removeDotSegments ref
      else sch ++ "://" ++ auth ++ removeDotSegments (mergePaths path ref)

/-! ### Metrics (`Crawler.Metrics`)

`self.stats` is a Python dict from counter name to count; modelled as an
insertion-ordered association list, exactly the shape a dict exposes. -/

def assocGet : List (String × Nat) → String → Option Nat
  | [], _ => none
  | (k, v) :: t, key => if k = key then some v else assocGet t key

def assocSet : List (String × Nat) → String → Nat → List (String × Nat)
  | [], key, v => [(key, v)]
  | (k, w) :: t, key, v =>
    if k = key then (k, v) :: t else (k, w) :: assocSet t key v

structure Metrics where
  stats : List (String × Nat)
deriving DecidableEq

/-- `Metrics.__init__`: the dict starts with the two fixed counters. -/
def Metrics.init : Metrics :=
  ⟨[("total_processed", 0), ("logos_found", 0)]⟩

/-- Read a counter (0 when the key is absent; `__init__` guarantees the
two fixed keys are always present, so this default is never observed for
them). -/
def Metrics.stat (m : Metrics) (k : String) : Nat :=
  (assocGet m.stats k).getD 0

/-- `Metrics.record_success`: `total_processed += 1`, and `logos_found += 1`
when `has_logo` holds. -/
def Metrics.record_success (m : Metrics) (has_logo : Bool) : Metrics :=
  let s1 := assocSet m.stats "total_processed" ((assocGet m.stats "total_processed").getD 0 + 1)
  if has_logo then
    ⟨assocSet s1 "logos_found" ((assocGet s1 "logos_found").getD 0 + 1)⟩
  else ⟨s1⟩

/-- `Metrics.record_error`: create the counter at 0 when absent, then
increment it. -/
def Metrics.record_error (m : Metrics) (k : String) : Metrics :=
  let s0 :=
    match assocGet m.stats k with
    | none => m.stats ++ [(k, 0)]
    | some _ => m.stats
  ⟨assocSet s0 k ((assocGet s0 k).getD 0 + 1)⟩

/-! ### `Crawler.parse` -/

/-- Python truthiness of an optional string (`None` and `""` are falsy):
the model of `if src:` after `img.get(...)`. -/
def truthyAttr : Option String → Option String
  | none => none
  | some s => if s = "" then none else some s

/-- Python `a or b` on optional strings (an empty string is falsy and
falls through, as in `img.get("src") or img.get("data-src")`). -/
def pyOr (a b : Option String) : Option String :=
  match a with
  | some s => if s = "" then b else some s
  | none => b

/-- The truthy logo candidate of `Crawler.parse`: from the first matching
`img` (src, then data-src, then data-lazy, with Python `or`), else from the
first matching social-media `meta` (its `content`); note the `meta`
fallback is only consulted when no `img` matched at all (`else` branch),
not when a matched `img` lacked a truthy source. -/
def logoCandidate (soup : List Element) : Option String :=
  match selectOne imgSelMatch soup with
  | some img =>
    truthyAttr (pyOr (pyOr (attrGet img "src") (attrGet img "data-src")) (attrGet img "data-lazy"))
  | none =>
    match selectOne metaSelMatch soup with
    | some meta => truthyAttr (attrGet meta "content")
    | none => none

/-- The logo half of `Crawler.parse`: on a truthy candidate the URL is
joined against the base and `record_success(has_logo=True)` fires. -/
def logoPart (url : String) (soup : List Element) (m : Metrics) : String × Metrics :=
  match logoCandidate soup with
  | some c => (urljoin url c, m.record_success true)
  | none => ("", m)

/-- The favicon half of `Crawler.parse` (records nothing). -/
def faviconPart (url : String) (soup : List Element) : String :=
  match selectOne linkSelMatch soup with
  | some link =>
    match truthyAttr (attrGet link "href") with
    | some href => urljoin url href
    | none => ""
  | none => ""

/-- `Crawler.parse(url, html)`: returns `(logo_url, favicon_url)` and the
updated metrics; when no logo was found, `record_success(has_logo=False)`
still fires ("Always record processing attempt"). -/
def parse (url html : String) (m : Metrics) : (String × String) × Metrics :=
  let soup := parseHTMLTags html
  let lp := logoPart url soup m
  let m2 := if lp.1 = "" then lp.2.record_success false else lp.2
  ((lp.1, faviconPart url soup), m2)

/-! ### `Crawler.fetch`

The network call's observable outcome: either a final response (status and
body, redirects already followed by the client) or one of the exception
classes the handlers distinguish.  httpx exception classes are disjoint,
and the `except` clauses are tried first-match, so each outcome hits
exactly one handler.  The pre-request sleep and the semaphore do not
change the returned value or the metrics and are modelled separately
(see the semaphore section). -/

inductive HTTPOutcome where
  | resp (status : Nat) (body : String)
  | timeout
  | network
  | otherExc
deriving DecidableEq

/-- httpx `Response.raise_for_status` succeeds exactly on 2xx. -/
def is2xx (s : Nat) : Bool := 200 ≤ s && s < 300

/-- `Crawler.fetch(url)`: body on success, `None` plus one classified
error counter increment on failure. -/
def fetch (out : HTTPOutcome) (m : Metrics) : Option String × Metrics :=
  match out with
  | .resp s body =>
    if is2xx s then (some body, m) else (none, m.record_error "http_error")
  | .timeout => (none, m.record_error "timeout_error")
  | .network => (none, m.record_error "network_error")
  | .otherExc => (none, m.record_error "unknown_error")

/-- The error counter a fetch outcome is classified into (`none` = fetch
succeeds). -/
def errorKey : HTTPOutcome → Option String
  | .resp s _ => if is2xx s then none else some "http_error"
  | .timeout => some "timeout_error"
  | .network => some "network_error"
  | .otherExc => some "unknown_error"

/-! ### `Crawler.fetch_and_parse` (worker loop body) and the Work Queue

One loop iteration: `domain = await url_queue.get()`, build
`url = "https://" + domain`, then `try: fetch; if body: parse + csv put`
`except: record parse_error` `finally: task_done()`.  `fetch` swallows its
own exceptions, so only the extraction step can raise into the `except`
clause; that possibility (BeautifulSoup internals, modelled as opaque) is
the `ParseBehavior` oracle.  The ack count of an iteration is the number
of `task_done()` calls it performs: the `finally` clause runs exactly once
on both the normal and the exceptional path. -/

abbrev Row := String × String × String

inductive ParseBehavior where
  | ok
  | raises
deriving DecidableEq

/-- The per-item environment: the domain, the network outcome of its
fetch, and whether extraction raises. -/
structure ItemEnv where
  domain : String
  out : HTTPOutcome
  pb : ParseBehavior
deriving DecidableEq

/-- One `fetch_and_parse` iteration: (task_done count, rows pushed to the
csv queue, updated metrics). -/
def iterOnce (it : ItemEnv) (m : Metrics) : Nat × List Row × Metrics :=
  let url := "https://" ++ it.domain
  match fetch it.out m with
  | (none, m1) => (1, [], m1)
  | (some html, m1) =>
    match it.pb with
    | .raises => (1, [], m1.record_error "parse_error")
    | .ok =>
      let r := parse url html m1
      (1, [(it.domain, r.1.1, r.1.2)], r.2)

/-- Process every enqueued WorkItem: per-item `task_done` counts, the rows
that reach the csv queue (arrival order), and the final metrics. -/
def runItems : List ItemEnv → Metrics → List Nat × List Row × Metrics
  | [], m => ([], [], m)
  | it :: rest, m =>
    ((iterOnce it m).1 :: (runItems rest (iterOnce it m).2.2).1,
     (iterOnce it m).2.1 ++ (runItems rest (iterOnce it m).2.2).2.1,
     (runItems rest (iterOnce it m).2.2).2.2)

/-- The Work Queue's outstanding (unfinished-task) counter: `put_nowait`
has set it to the number of enqueued items; each `task_done` decrements;
`join` returns when it reaches 0. -/
def runUnfinished : List ItemEnv → Metrics → Nat → Nat
  | [], _, u => u
  | it :: rest, m, u =>
    runUnfinished rest (iterOnce it m).2.2 (u - (iterOnce it m).1)

/-! ### `Crawler.writer_csv` (Sink)

Consumes the csv queue in order and writes every row until the `None`
shutdown sentinel, which it acknowledges and stops on. -/

def writerRows : List (Option Row) → List Row
  | [] => []
  | none :: _ => []
  | some r :: rest => r :: writerRows rest

/-! ### `Crawler.Metrics.print_summary`

Python `/` on the counters raises `ZeroDivisionError` on a zero divisor;
the model returns the log lines emitted before any such exception together
with the exception, if one was raised.  Numeric formatting of the emitted
lines is abstracted (the claims concern emission and termination, not the
decimal rendering). -/

def pydiv (a b : ℚ) : Except String ℚ :=
  if b = 0 then .error "ZeroDivisionError" else .ok (a / b)

/-- `print_summary`, parameterised by the (positive in any real run)
wall-clock runtime.  Returns (lines logged, unhandled exception). -/
def print_summary (runtime : ℚ) (m : Metrics) : List String × Option String :=
  let total := m.stat "total_processed"
  let found := m.stat "logos_found"
  let l1 := "Processing Complete - " ++ toString total ++ " domains processed"
  match pydiv (found : ℚ) (total : ℚ) with
  | .error e => ([l1], some e)
  | .ok _ =>
    let l2 := "Logo Discovery Rate: " ++ toString found ++ "/" ++ toString total
    match pydiv (total : ℚ) runtime with
    | .error e => ([l1, l2], some e)
    | .ok _ =>
      let l3 := "Processing Rate"
      let errKeys := m.stats.filter (fun p => p.1 ≠ "total_processed" && p.1 ≠ "logos_found")
      ([l1, l2, l3] ++ errKeys.map (fun p => "  " ++ p.1 ++ ": " ++ toString p.2), none)

/-! ### The fetch semaphore

`fetch` performs its network call inside `async with self.semaphore`,
where the semaphore was created with `request_limit` permits.  States:
each worker is either outside the `async with` block (`idle`) or inside
it with its `client.get` in flight (`fetching`); the semaphore's counter
holds the free permits.  Transitions are permit acquisition (only when a
permit is free) and release. -/

inductive WPhase where
  | idle
  | fetching
deriving DecidableEq

structure SemState where
  permits : Nat
  workers : List WPhase
deriving DecidableEq

/-- Number of fetches currently in flight. -/
def inFlight (s : SemState) : Nat :=
  (s.workers.filter (fun w => w = WPhase.fetching)).length

/-- Initial state: all permits free, every worker outside the block. -/
def semInit (n w : Nat) : SemState :=
  ⟨n, List.replicate w .idle⟩

/-- One scheduler step of the semaphore protocol. -/
inductive SemStep : SemState → SemState → Prop
  | acquire (i : Nat) (s : SemState) (hi : i < s.workers.length)
      (hidle : s.workers.get ⟨i, hi⟩ = .idle) (hp : 0 < s.permits) :
      SemStep s ⟨s.permits - 1, s.workers.set i .fetching⟩
  | release (i : Nat) (s : SemState) (hi : i < s.workers.length)
      (hf : s.workers.get ⟨i, hi⟩ = .fetching) :
      SemStep s ⟨s.permits + 1, s.workers.set i .idle⟩

/-! ### Lemmas: association-list dict operations -/

theorem assocGet_assocSet_self (l : List (String × Nat)) (k : String) (v : Nat) :
    assocGet (assocSet l k v) k = some v := by
  induction l with
  | nil => simp [assocSet, assocGet]
  | cons p t ih =>
    obtain ⟨pk, pv⟩ := p
    by_cases h : pk = k
    · simp [assocSet, assocGet, h]
    · simp [assocSet, assocGet, h, ih]

theorem assocGet_assocSet_ne (l : List (String × Nat)) (k k' : String) (v : Nat)
    (h : k' ≠ k) : assocGet (assocSet l k v) k' = assocGet l k' := by
  induction l with
  | nil => simp [assocSet, assocGet, Ne.symm h]
  | cons p t ih =>
    obtain ⟨pk, pv⟩ := p
    by_cases h1 : pk = k
    · subst h1
      simp [assocSet, assocGet, Ne.symm h]
    · by_cases h2 : pk = k'
      · simp [assocSet, assocGet, h1, h2, h]
      · simp [assocSet, assocGet, h1, h2, ih]

theorem assocGet_append_self (l : List (String × Nat)) (k : String) (v : Nat)
    (h : assocGet l k = none) : assocGet (l ++ [(k, v)]) k = some v := by
  induction l with
  | nil => simp [assocGet]
  | cons p t ih =>
    obtain ⟨pk, pv⟩ := p
    by_cases h1 : pk = k
    · simp [assocGet, h1] at h
    · simp [assocGet, h1] at h ⊢
      exact ih h

theorem assocGet_append_ne (l : List (String × Nat)) (k k' : String) (v : Nat)
    (h : k' ≠ k) : assocGet (l ++ [(k, v)]) k' = assocGet l k' := by
  induction l with
  | nil => simp [assocGet, Ne.symm h]
  | cons p t ih =>
    obtain ⟨pk, pv⟩ := p
    by_cases h1 : pk = k'
    · simp [assocGet, h1]
    · simp [assocGet, h1, ih]

/-! ### Lemmas: metrics counter arithmetic -/

theorem stat_record_error_self (m : Metrics) (k : String) :
    (m.record_error k).stat k = m.stat k + 1 := by
  unfold Metrics.record_error Metrics.stat
  cases h : assocGet m.stats k with
  | none => simp [h, assocGet_assocSet_self, assocGet_append_self _ _ _ h]
  | some v => simp [h, assocGet_assocSet_self]

theorem stat_record_error_ne (m : Metrics) (k k' : String) (h : k' ≠ k) :
    (m.record_error k).stat k' = m.stat k' := by
  unfold Metrics.record_error Metrics.stat
  cases h1 : assocGet m.stats k with
  | none => simp [h1, assocGet_assocSet_ne _ _ _ _ h, assocGet_append_ne _ _ _ _ h]
  | some v => simp [h1, assocGet_assocSet_ne _ _ _ _ h]

theorem stat_record_success_total (m : Metrics) (b : Bool) :
    (m.record_success b).stat "total_processed" = m.stat "total_processed" + 1 := by
  unfold Metrics.record_success Metrics.stat
  cases b with
  | false => simp [assocGet_assocSet_self]
  | true =>
    have hne : ("total_processed" : String) ≠ "logos_found" := by decide
    simp [assocGet_assocSet_ne _ _ _ _ hne, assocGet_assocSet_self]

theorem stat_record_success_ne (m : Metrics) (b : Bool) (k : String)
    (h1 : k ≠ "total_processed") (h2 : k ≠ "logos_found") :
    (m.record_success b).stat k = m.stat k := by
  unfold Metrics.record_success Metrics.stat
  cases b with
  | false => simp [assocGet_assocSet_ne _ _ _ _ h1]
  | true => simp [assocGet_assocSet_ne _ _ _ _ h1, assocGet_assocSet_ne _ _ _ _ h2]

/-! ### Lemmas: parse -/

theorem truthyAttr_some {o : Option String} {s : String}
    (h : truthyAttr o = some s) : s ≠ "" := by
  cases o with
  | none => simp [truthyAttr] at h
  | some t =>
    by_cases h1 : t = ""
    · simp [truthyAttr, h1] at h
    · simp [truthyAttr, h1] at h
      exact h ▸ h1

theorem str_data_append (a b : String) : (a ++ b).data = a.data ++ b.data := rfl

theorem ne_empty_of_data {s : String} (h : s.data ≠ []) : s ≠ "" := by
  intro he
  exact h (by rw [he])

theorem append_colon_ne_empty (a b c : String) (h : b.data ≠ []) :
    a ++ b ++ c ≠ "" := by
  apply ne_empty_of_data
  rw [str_data_append, str_data_append]
  intro hh
  have := (List.append_eq_nil.mp hh).1
  exact h (List.append_eq_nil.mp this).2

/-- A truthy candidate joined against any base is never the empty string
(every branch of `urljoin` returns either the nonempty reference, the
base when the reference is empty — excluded here — or a string containing
a literal separator). -/
theorem urljoin_ne_empty (base ref : String) (h : ref ≠ "") :
    urljoin base ref ≠ "" := by
  unfold urljoin
  rw [if_neg h]
  by_cases h1 : hasScheme ref = true
  · simpa [h1]
  · rw [if_neg h1]
    by_cases h2 : hasPref ['/', '/'] ref.data = true
    · rw [if_pos h2]
      cases h3 : splitBase base with
      | none => simpa
      | some p =>
        obtain ⟨sch, auth, path⟩ := p
        simpa using append_colon_ne_empty sch ":" ref (by decide)
    · rw [if_neg h2]
      cases h3 : splitBase base with
      | none => simpa
      | some p =>
        obtain ⟨sch, auth, path⟩ := p
        simp only
        by_cases h4 : hasPref ['/'] ref.data = true
        · rw [if_pos h4]
          have := append_colon_ne_empty sch "://" (auth ++ removeDotSegments ref) (by decide)
          simpa [String.append_assoc] using this
        · rw [if_neg h4]
          have := append_colon_ne_empty sch "://"
            (auth ++ removeDotSegments (mergePaths path ref)) (by decide)
          simpa [String.append_assoc] using this

/-- A truthy logo candidate is never the empty string. -/
theorem logoCandidate_some {soup : List Element} {c : String}
    (h : logoCandidate soup = some c) : c ≠ "" := by
  unfold logoCandidate at h
  cases h1 : selectOne imgSelMatch soup with
  | some img =>
    rw [h1] at h
    exact truthyAttr_some h
  | none =>
    rw [h1] at h
    cases h2 : selectOne metaSelMatch soup with
    | some meta =>
      rw [h2] at h
      exact truthyAttr_some h
    | none =>
      rw [h2] at h
      simp at h

/-- `logoPart` either found a truthy candidate (nonempty resolved logo URL,
`record_success(True)`) or found none (empty logo URL, metrics untouched). -/
theorem logoPart_cases (url : String) (soup : List Element) (m : Metrics) :
    ((logoPart url soup m).1 ≠ "" ∧ (logoPart url soup m).2 = m.record_success true) ∨
    ((logoPart url soup m).1 = "" ∧ (logoPart url soup m).2 = m) := by
  unfold logoPart
  cases h1 : logoCandidate soup with
  | some c =>
    exact Or.inl ⟨urljoin_ne_empty url c (logoCandidate_some h1), rfl⟩
  | none => exact Or.inr ⟨rfl, rfl⟩

/-- `logoPart`'s returned URL does not depend on the metrics state. -/
theorem logoPart_fst_const (url : String) (soup : List Element) (m m' : Metrics) :
    (logoPart url soup m).1 = (logoPart url soup m').1 := by
  unfold logoPart
  cases h1 : logoCandidate soup <;> rfl

/-- Each `parse` call fires `record_success` exactly once. -/
theorem parse_total_processed (url html : String) (m : Metrics) :
    ((parse url html m).2).stat "total_processed" = m.stat "total_processed" + 1 := by
  unfold parse
  rcases logoPart_cases url (parseHTMLTags html) m with ⟨h1, h2⟩ | ⟨h1, h2⟩
  · simp only [if_neg h1, h2, stat_record_success_total]
  · simp only [if_pos h1, h2, stat_record_success_total]

/-! ### Lemmas: worker loop and queues -/

/-- Every loop iteration calls `task_done` exactly once: the `finally`
clause runs on the success path, the fetch-failure path and the
extraction-exception path alike. -/
theorem iterOnce_ack (it : ItemEnv) (m : Metrics) : (iterOnce it m).1 = 1 := by
  unfold iterOnce
  rcases fetch it.out m with ⟨_ | html, m1⟩
  · rfl
  · cases it.pb <;> rfl

theorem runItems_acks (items : List ItemEnv) : ∀ m : Metrics,
    (runItems items m).1 = List.replicate items.length 1 := by
  induction items with
  | nil => intro m; rfl
  | cons it rest ih =>
    intro m
    simp [runItems, iterOnce_ack, ih, List.replicate_succ]

theorem runUnfinished_eq (items : List ItemEnv) : ∀ (m : Metrics) (u : Nat),
    runUnfinished items m u = u - items.length := by
  induction items with
  | nil => intro m u; simp [runUnfinished]
  | cons it rest ih =>
    intro m u
    simp only [runUnfinished, iterOnce_ack, ih, List.length_cons]
    omega

/-- A classified fetch failure returns no body and hits exactly the
matching handler. -/
theorem fetch_of_errorKey {out : HTTPOutcome} {k : String} (m : Metrics)
    (h : errorKey out = some k) : fetch out m = (none, m.record_error k) := by
  cases out with
  | resp s b =>
    by_cases hs : is2xx s
    · simp [errorKey, hs] at h
    · simp [errorKey, hs] at h
      simp [fetch, hs, h]
  | timeout => simp [errorKey] at h; simp [fetch, h]
  | network => simp [errorKey] at h; simp [fetch, h]
  | otherExc => simp [errorKey] at h; simp [fetch, h]

/-- The error keys are disjoint from the two success counters. -/
theorem errorKey_ne_success {out : HTTPOutcome} {k : String}
    (h : errorKey out = some k) :
    k ≠ "total_processed" ∧ k ≠ "logos_found" := by
  cases out with
  | resp s b =>
    by_cases hs : is2xx s
    · simp [errorKey, hs] at h
    · simp [errorKey, hs] at h
      subst h
      exact ⟨by decide, by decide⟩
  | timeout => simp [errorKey] at h; subst h; exact ⟨by decide, by decide⟩
  | network => simp [errorKey] at h; subst h; exact ⟨by decide, by decide⟩
  | otherExc => simp [errorKey] at h; subst h; exact ⟨by decide, by decide⟩

/-- The Sink writes every row queued before the shutdown sentinel. -/
theorem writerRows_complete (rows : List Row) :
    writerRows (rows.map some ++ [none]) = rows := by
  induction rows with
  | nil => rfl
  | cons r rest ih => simp [writerRows, ih]

/-! ### Lemmas: the semaphore invariant -/

theorem filter_set_fetching (l : List WPhase) : ∀ (i : Nat) (hi : i < l.length),
    l.get ⟨i, hi⟩ = .idle →
    ((l.set i .fetching).filter (fun w => w = WPhase.fetching)).length =
      (l.filter (fun w => w = WPhase.fetching)).length + 1 := by
  induction l with
  | nil => intro i hi; simp at hi
  | cons a t ih =>
    intro i hi hg
    cases i with
    | zero =>
      simp only [List.get] at hg
      subst hg
      simp [List.filter]
    | succ j =>
      simp only [List.get] at hg
      have := ih j (by simpa using hi) hg
      cases ha : (a = WPhase.fetching : Bool) <;>
        simp_all [List.filter, List.set]

theorem filter_set_idle (l : List WPhase) : ∀ (i : Nat) (hi : i < l.length),
    l.get ⟨i, hi⟩ = .fetching →
    ((l.set i .idle).filter (fun w => w = WPhase.fetching)).length + 1 =
      (l.filter (fun w => w = WPhase.fetching)).length := by
  induction l with
  | nil => intro i hi; simp at hi
  | cons a t ih =>
    intro i hi hg
    cases i with
    | zero =>
      simp only [List.get] at hg
      subst hg
      simp [List.filter]
    | succ j =>
      simp only [List.get] at hg
      have := ih j (by simpa using hi) hg
      cases ha : (a = WPhase.fetching : Bool) <;>
        simp_all [List.filter, List.set]

/-- One step preserves `permits + inFlight = n`. -/
theorem semStep_invariant {n : Nat} {s s' : SemState} (h : SemStep s s')
    (hinv : s.permits + inFlight s = n) : s'.permits + inFlight s' = n := by
  cases h with
  | acquire i s hi hidle hp =>
    have hc := filter_set_fetching s.workers i hi hidle
    unfold inFlight at *
    simp only at hc ⊢
    omega
  | release i s hi hf =>
    have hc := filter_set_idle s.workers i hi hf
    unfold inFlight at *
    simp only at hc ⊢
    omega

theorem inFlight_semInit (n w : Nat) : inFlight (semInit n w) = 0 := by
  unfold inFlight semInit
  induction w with
  | zero => rfl
  | succ j ih => simp [List.replicate, List.filter] at ih ⊢

theorem sem_reachable_invariant {n w : Nat} {s : SemState}
    (h : Relation.ReflTransGen SemStep (semInit n w) s) :
    s.permits + inFlight s = n := by
  induction h with
  | refl =>
    have h0 := inFlight_semInit n w
    simp only [semInit] at h0 ⊢
    omega
  | tail _ hstep ih => exact semStep_invariant hstep ih

/-! ### The claims -/

/-- C1: every WorkItem enqueued on the Work Queue is acknowledged exactly
once — whether the fetch succeeds, the fetch fails, or extraction raises —
so after the pipeline has processed every enqueued item the Work Queue's
outstanding count (seeded to the number of enqueued items by `put_nowait`,
decremented by each `task_done`) is exactly zero: no item is dropped or
double-acknowledged, for every choice of per-item outcomes. -/
theorem claim_C1_every_item_acked_once_queue_drains :
    ∀ (items : List ItemEnv) (m : Metrics),
      (runItems items m).1 = List.replicate items.length 1 ∧
      runUnfinished items m items.length = 0 := by
  intro items m
  refine ⟨runItems_acks items m, ?_⟩
  rw [runUnfinished_eq items m items.length]
  omega

/-- C2: a failed fetch returns no body and increments exactly one error
counter — `timeout_error` for a timeout, `http_error` for a non-2xx final
status (non-2xx is never a success), `network_error` for a connection/DNS
failure, `unknown_error` for any other exception — by exactly 1, leaving
every other counter (in particular `logos_found`) unchanged. -/
theorem claim_C2_fetch_failure_classified_once :
    ∀ (m : Metrics) (out : HTTPOutcome) (k : String),
      errorKey out = some k →
      (fetch out m).1 = none ∧
      (fetch out m).2.stat k = m.stat k + 1 ∧
      ∀ k', k' ≠ k → (fetch out m).2.stat k' = m.stat k' := by
  intro m out k h
  rw [fetch_of_errorKey m h]
  exact ⟨rfl, stat_record_error_self m k, fun k' hk => stat_record_error_ne m k k' hk⟩

/-- Witness for C2: a timeout on the initial metrics yields no body,
bumps `timeout_error` from 0 to 1 and leaves `logos_found` at 0. -/
theorem claim_C2_witness :
    (fetch HTTPOutcome.timeout Metrics.init).1 = none ∧
    (fetch HTTPOutcome.timeout Metrics.init).2.stat "timeout_error" =
      Metrics.init.stat "timeout_error" + 1 ∧
    (fetch HTTPOutcome.timeout Metrics.init).2.stat "logos_found" =
      Metrics.init.stat "logos_found" :=
  ⟨(claim_C2_fetch_failure_classified_once Metrics.init .timeout "timeout_error" rfl).1,
   (claim_C2_fetch_failure_classified_once Metrics.init .timeout "timeout_error" rfl).2.1,
   (claim_C2_fetch_failure_classified_once Metrics.init .timeout "timeout_error" rfl).2.2
     "logos_found" (by decide)⟩

/-- C3: each loop iteration pushes at most one result row; an iteration
whose fetch fails pushes none (the failure is visible only as an error
counter) yet still acknowledges its item, and the loop recursion continues
over the remaining items unconditionally, so one item's failure never
aborts the pipeline or affects other items. -/
theorem claim_C3_at_most_one_result_failure_skipped :
    (∀ (it : ItemEnv) (m : Metrics), ((iterOnce it m).2.1).length ≤ 1) ∧
    (∀ (it : ItemEnv) (m : Metrics) (k : String),
      errorKey it.out = some k →
      (iterOnce it m).2.1 = [] ∧ (iterOnce it m).1 = 1 ∧
      (iterOnce it m).2.2 = m.record_error k) ∧
    (∀ (it : ItemEnv) (rest : List ItemEnv) (m : Metrics),
      runItems (it :: rest) m =
        ((iterOnce it m).1 :: (runItems rest (iterOnce it m).2.2).1,
         (iterOnce it m).2.1 ++ (runItems rest (iterOnce it m).2.2).2.1,
         (runItems rest (iterOnce it m).2.2).2.2)) := by
  refine ⟨?_, ?_, fun it rest m => rfl⟩
  · intro it m
    unfold iterOnce
    rcases fetch it.out m with ⟨_ | html, m1⟩
    · simp
    · cases it.pb <;> simp
  · intro it m k h
    unfold iterOnce
    rw [fetch_of_errorKey m h]
    exact ⟨rfl, rfl, rfl⟩

/-- Witness for C3: a timed-out fetch of one domain produces no row, one
acknowledgement, and only the `timeout_error` counter. -/
theorem claim_C3_witness :
    (iterOnce ⟨"example.com", HTTPOutcome.timeout, ParseBehavior.ok⟩ Metrics.init).2.1 = [] ∧
    (iterOnce ⟨"example.com", HTTPOutcome.timeout, ParseBehavior.ok⟩ Metrics.init).1 = 1 ∧
    (iterOnce ⟨"example.com", HTTPOutcome.timeout, ParseBehavior.ok⟩ Metrics.init).2.2 =
      Metrics.init.record_error "timeout_error" :=
  claim_C3_at_most_one_result_failure_skipped.2.1
    ⟨"example.com", HTTPOutcome.timeout, ParseBehavior.ok⟩ Metrics.init "timeout_error" rfl

/-- C4: candidate URLs are resolved against the base with RFC 3986
URL-joining: on base `https://example.com` the body
`<img src="/images/logo.png" alt="Site Logo">` yields
`("https://example.com/images/logo.png", "")`, and on base
`https://example.com/subdir/` the body `<img src="logo.png" alt="logo">`
yields logo `https://example.com/subdir/logo.png` — resolution against the
full path, not just the host. -/
theorem claim_C4_relative_url_resolution :
    (parse "https://example.com"
      "<html><body><img src=\"/images/logo.png\" alt=\"Site Logo\"></body></html>"
      Metrics.init).1 = ("https://example.com/images/logo.png", "") ∧
    (parse "https://example.com/subdir/"
      "<html><body><img src=\"logo.png\" alt=\"logo\"></body></html>"
      Metrics.init).1.1 = "https://example.com/subdir/logo.png" := by
  exact ⟨by decide, by decide⟩

/-- C5: extraction of the empty document returns `("", "")` for every base
URL and every metrics state.  `parse` is a total Lean function, so the
model cannot raise; in the source the only code that could raise out of an
extraction is caught by the worker's `except` clause (claims C1/C3), so it
never fails the pipeline. -/
theorem claim_C5_empty_markup_tolerated :
    ∀ (url : String) (m : Metrics), (parse url "" m).1 = ("", "") :=
  fun _ _ => rfl

/-- C6 (amended): the extraction output pair is a pure function of
`(baseURL, htmlBody)` alone — calls on the identical pair return identical
output whatever the metrics state — but `parse` is not free of external
mutation (see the counterexample: it updates the shared metrics). -/
theorem claim_C6_output_deterministic :
    ∀ (u h : String) (m m' : Metrics), (parse u h m).1 = (parse u h m').1 := by
  intro u h m m'
  unfold parse
  simp only
  rw [logoPart_fst_const u (parseHTMLTags h) m m']

/-- Counterexample to C6 as stated: `parse` mutates state outside its
arguments — one call on the initial metrics changes the accumulator
(`total_processed` 0 → 1). -/
theorem claim_C6_counterexample :
    (parse "https://example.com" "" Metrics.init).2 ≠ Metrics.init := by decide

/-- C7, evaluated at the failing input: after a run in which the only
fetch timed out (`total_processed = 0`), `print_summary` raises
`ZeroDivisionError` computing `found/total*100`, having logged only the
first line — no success percentage and no per-error-kind breakdown are
emitted, contradicting the claim that a summary is emitted and the process
terminates successfully for every run. -/
theorem claim_C7_summary_crashes_when_nothing_processed :
    (print_summary 1 (Metrics.init.record_error "timeout_error")).2 =
      some "ZeroDivisionError" ∧
    (print_summary 1 (Metrics.init.record_error "timeout_error")).1 =
      ["Processing Complete - 0 domains processed"] := by
  exact ⟨by decide, by decide⟩

/-- C8: with `request_limit = n` permits, in every state reachable by the
semaphore protocol (each fetch's network call happens inside
`async with self.semaphore`) the number of in-flight fetches is at most
`n`, for any number of workers. -/
theorem claim_C8_at_most_n_fetches_in_flight :
    ∀ (n w : Nat) (s : SemState),
      Relation.ReflTransGen SemStep (semInit n w) s → inFlight s ≤ n := by
  intro n w s h
  have := sem_reachable_invariant h
  omega

/-- Witness for C8: limit 2, 10 workers; after two acquisitions the state
with two fetches in flight is reachable and satisfies the bound. -/
theorem claim_C8_witness :
    inFlight ⟨0, ((List.replicate 10 WPhase.idle).set 0 .fetching).set 1 .fetching⟩ ≤ 2 := by
  have h1 : SemStep (semInit 2 10) ⟨1, (List.replicate 10 WPhase.idle).set 0 .fetching⟩ :=
    SemStep.acquire 0 (semInit 2 10) (by decide) (by decide) (by decide)
  have h2 : SemStep ⟨1, (List.replicate 10 WPhase.idle).set 0 .fetching⟩
      ⟨0, ((List.replicate 10 WPhase.idle).set 0 .fetching).set 1 .fetching⟩ :=
    SemStep.acquire 1 ⟨1, (List.replicate 10 WPhase.idle).set 0 .fetching⟩
      (by decide) (by decide) (by decide)
  exact claim_C8_at_most_n_fetches_in_flight 2 10 _
    (Relation.ReflTransGen.head h1 (Relation.ReflTransGen.single h2))

/-- C9: every `parse` call increments `total_processed` by exactly 1
(logo found or not), while a failed fetch leaves `total_processed` and
`logos_found` untouched and increments only its error counter — so
`total_processed` counts exactly the domains whose fetch succeeded and
whose body was parsed. -/
theorem claim_C9_total_processed_counts_parses_only :
    (∀ (url html : String) (m : Metrics),
      (parse url html m).2.stat "total_processed" = m.stat "total_processed" + 1) ∧
    (∀ (m : Metrics) (out : HTTPOutcome) (k : String),
      errorKey out = some k →
      (fetch out m).2.stat "total_processed" = m.stat "total_processed" ∧
      (fetch out m).2.stat "logos_found" = m.stat "logos_found" ∧
      (fetch out m).2.stat k = m.stat k + 1) := by
  refine ⟨parse_total_processed, ?_⟩
  intro m out k h
  rw [fetch_of_errorKey m h]
  obtain ⟨h1, h2⟩ := errorKey_ne_success h
  exact ⟨stat_record_error_ne m k "total_processed" (Ne.symm h1),
         stat_record_error_ne m k "logos_found" (Ne.symm h2),
         stat_record_error_self m k⟩

/-- Witness for C9: parsing a logo-free body bumps `total_processed`
0 → 1, and a timed-out fetch leaves it at 0 while bumping `timeout_error`. -/
theorem claim_C9_witness :
    (parse "https://example.com" "<p>hi</p>" Metrics.init).2.stat "total_processed" =
      Metrics.init.stat "total_processed" + 1 ∧
    (fetch HTTPOutcome.timeout Metrics.init).2.stat "total_processed" =
      Metrics.init.stat "total_processed" :=
  ⟨claim_C9_total_processed_counts_parses_only.1 "https://example.com" "<p>hi</p>" Metrics.init,
   (claim_C9_total_processed_counts_parses_only.2 Metrics.init .timeout "timeout_error" rfl).1⟩

/-- C10: a domain whose fetch returns a 2xx body and whose extraction
completes pushes exactly one row — `(domain, logoURL, faviconURL)`, even
when both extracted URLs are empty — and the Sink writes every row queued
before the sentinel. -/
theorem claim_C10_empty_extraction_still_one_row :
    (∀ (d body : String) (s : Nat) (m : Metrics),
      is2xx s = true →
      (iterOnce ⟨d, .resp s body, .ok⟩ m).2.1 =
        [(d, (parse ("https://" ++ d) body m).1.1, (parse ("https://" ++ d) body m).1.2)]) ∧
    (∀ rows : List Row, writerRows (rows.map some ++ [none]) = rows) := by
  refine ⟨?_, writerRows_complete⟩
  intro d body s m hs
  unfold iterOnce
  simp [fetch, hs]

/-- Witness for C10: a 200 body with no logo and no favicon still yields
the row `("example.com", "", "")`, and the Sink writes it. -/
theorem claim_C10_witness :
    (iterOnce ⟨"example.com", HTTPOutcome.resp 200 "<p>hi</p>", ParseBehavior.ok⟩
      Metrics.init).2.1 = [("example.com", "", "")] ∧
    writerRows [some ("example.com", "", ""), none] = [("example.com", "", "")] :=
  ⟨(claim_C10_empty_extraction_still_one_row.1 "example.com" "<p>hi</p>" 200 Metrics.init
      (by decide)).trans (by decide),
   claim_C10_empty_extraction_still_one_row.2 [("example.com", "", "")]⟩

end Crawler
